import Mathlib

/-!
# Shallow embedding of the CUBIC + SEARCH congestion-control sources

This file embeds, in Lean, the congestion-control code of the repository
(`src/src/tcp_cubic_search.c`, the "SRC" variant, and
`src/dev-in-progress/tcp_cubic.c`, the "DEV" variant) and proves or refutes
the specification claims about it.

Machine integers are modelled as `Nat` reduced modulo `2^32` / `2^64` at the
points where the C types would wrap; signed 32/64-bit reads of unsigned values
are modelled by explicit twos-complement reinterpretation (`s32OfU32`,
`s64OfU64`).  The per-flow C structs become Lean structures; the SRC union of
the HyStart and SEARCH blocks is modelled in its logical (tagged, one variant
active) view, so byte-level aliasing between the two blocks is out of scope.
Fixed-size arrays are modelled as update functions `Nat → Nat` indexed exactly
as the C code indexes them.
-/

namespace TcpSS

/-! ## Machine-arithmetic helpers -/

def U32 : Nat := 4294967296

def U64 : Nat := 18446744073709551616

/-- Truncation to `u32`. -/
def u32 (n : Nat) : Nat := n % U32

/-- Truncation to `u64`. -/
def u64 (n : Nat) : Nat := n % U64

/-- Wrap-around `u32` subtraction `a - b`. -/
def u32sub (a b : Nat) : Nat := (a % U32 + U32 - b % U32) % U32

/-- Wrap-around `u64` subtraction `a - b`. -/
def u64sub (a b : Nat) : Nat := (a % U64 + U64 - b % U64) % U64

/-- Reinterpret a `u32` value as a signed `s32` (twos complement). -/
def s32OfU32 (n : Nat) : Int :=
  if n % U32 < 2147483648 then (n % U32 : Int) else (n % U32 : Int) - (U32 : Int)

/-- Reinterpret a `u64` value as a signed `s64` (twos complement). -/
def s64OfU64 (n : Nat) : Int :=
  if n % U64 < 9223372036854775808 then (n % U64 : Int) else (n % U64 : Int) - (U64 : Int)

/-- The kernel macro `after(a, b)`: `(s32)(b - a) < 0`, i.e. sequence/time `a`
is strictly "after" `b` in wrap-around order. -/
def after32 (a b : Nat) : Bool := s32OfU32 (u32sub b a) < 0

/-- The `(s32)` value of a `u32` difference, sign-extended to a `u64` bit
pattern and read back as a `Nat` (this is what `u64 t = (s32)(x - y);` does
in the C sources). -/
def s32ToU64 (d : Nat) : Nat :=
  if d % U32 < 2147483648 then d % U32 else U64 - (U32 - d % U32)

/-! ## Module-level configuration constants (the default values of the sources)

`HZ` is the kernel tick rate the module is compiled against; we fix the common
value 1000.  The remaining constants are the module parameters of the sources
with their default values, and the derived scale factors computed in
`cubicsearch_register` / `cubictcp_register`. -/

def HZ : Nat := 1000

def BICTCP_BETA_SCALE : Nat := 1024

/-- default of module parameter `beta` (= 717/1024). -/
def beta : Nat := 717

/-- default of module parameter `bic_scale`. -/
def bic_scale : Nat := 41

/-- Derived `beta_scale = 8*(BICTCP_BETA_SCALE+beta) / 3 / (BICTCP_BETA_SCALE - beta)`
(computed once at module registration; evaluates to 15). -/
def beta_scale : Nat := 8 * (BICTCP_BETA_SCALE + beta) / 3 / (BICTCP_BETA_SCALE - beta)

/-- Derived `cube_rtt_scale = bic_scale * 10` (= 410). -/
def cube_rtt_scale : Nat := bic_scale * 10

/-- Derived `cube_factor = 2^(10+3*BICTCP_HZ) / (bic_scale * 10)` (= 2^40 / 410). -/
def cube_factor : Nat := 1099511627776 / (bic_scale * 10)

/-- Kernel `usecs_to_jiffies` for `HZ = 1000`: one jiffy per 1000 usec, rounded up. -/
def usecs_to_jiffies (us : Nat) : Nat := (us + 1000000 / HZ - 1) / (1000000 / HZ)

/-! ## `cubic_root` (identical in both source variants)

`static u32 cubic_root(u64 a)`: table lookup on the most-significant-bit
position followed by one Newton-Raphson step. -/

/-- The 64-entry lookup table `v` of `cubic_root`. -/
def cubicTable : List Nat :=
  [0, 54, 54, 54, 118, 118, 118, 118,
   123, 129, 134, 138, 143, 147, 151, 156,
   157, 161, 164, 168, 170, 173, 176, 179,
   181, 185, 187, 190, 192, 194, 197, 199,
   200, 202, 204, 206, 209, 211, 213, 215,
   217, 219, 221, 222, 224, 225, 227, 229,
   231, 232, 234, 236, 237, 239, 240, 242,
   244, 245, 246, 248, 250, 251, 252, 254]

/-- Table read `v[i]` (reads out of the 64-entry range return 0; claim C10 shows the code
never performs such a read). -/
def vTab (i : Nat) : Nat := cubicTable.getD i 0

/-- One step of a binary bit-length ladder: if the running value is at least
`c = 2^k`, divide by `c` and add `k` to the accumulated bit count. -/
def flsStep (c k : Nat) (p : Nat × Nat) : Nat × Nat :=
  if c ≤ p.1 then (p.1 / c, p.2 + k) else p

/-- Kernel `fls64(a)`: position of the most significant set bit of the `u64` value
(0 for input 0), i.e. the bit length of `a % 2^64`, computed by a binary
ladder.  `fls64_lt_two_pow` and `fls64_two_pow_le` below certify that this
is exactly the find-last-set function of the kernel. -/
def fls64 (a : Nat) : Nat :=
  let p := flsStep 2 1 (flsStep 4 2 (flsStep 16 4 (flsStep 256 8
    (flsStep 65536 16 (flsStep 4294967296 32 (a % U64, 0))))))
  p.2 + p.1

/-- The shifted table index `shift = a >> (b * 3)` used by `cubic_root` on the
`fls64(a) >= 7` path (a `u32` in the C code). -/
def cubicRootShift (a : Nat) : Nat :=
  u32 ((a % U64) >>> ((((fls64 (a % U64) * 84) >>> 8) - 1) * 3))

/-- The initial Newton-Raphson estimate
`x = ((u32)(((u32)v[shift] + 10) << b)) >> 6` of `cubic_root` on the
`fls64(a) >= 7` path. -/
def cubicRootEstimate (a : Nat) : Nat :=
  u32 ((vTab (cubicRootShift a) + 10) <<< (((fls64 (a % U64) * 84) >>> 8) - 1)) >>> 6

/-- Function `static u32 cubic_root(u64 a)` from both source files.  The `b >= 7` path
is written with local `let`s; `cubicRootShift` / `cubicRootEstimate` above are
definitionally the values of its intermediates `shift` and the initial `x`. -/
def cubic_root (a0 : Nat) : Nat :=
  let a := a0 % U64
  let b := fls64 a
  if b < 7 then
    (vTab a + 35) >>> 6
  else
    let b1 := ((b * 84) >>> 8) - 1
    let shift := u32 (a >>> (b1 * 3))
    let x := u32 ((vTab shift + 10) <<< b1) >>> 6
    let x := u32 (2 * x + u32 (a / (x * (x - 1))))
    u32 (x * 341) >>> 10

/-! ## CUBIC window model: `struct bictcp` core fields and `bictcp_update`

These fields and functions are identical in the SRC and DEV variants (the DEV
field `loss_cwnd` and the detector blocks are modelled separately below). -/

/-- The CUBIC core of `struct bictcp` (fields `cnt` .. `tcp_cwnd`). -/
structure BicState where
  cnt : Nat
  last_max_cwnd : Nat
  last_cwnd : Nat
  last_time : Nat
  bic_origin_point : Nat
  bic_K : Nat
  delay_min : Nat
  epoch_start : Nat
  ack_cnt : Nat
  tcp_cwnd : Nat
  deriving DecidableEq, Repr

/-- State after `bictcp_reset`: every core field zeroed (also the state right after
`bictcp_init`, and the core effect of entering `TCP_CA_Loss`). -/
def initBic : BicState := ⟨0, 0, 0, 0, 0, 0, 0, 0, 0, 0⟩

/-- default of module parameter `tcp_friendliness` (enabled). -/
def tcp_friendliness : Nat := 1

/-- Closed form of the `while (ca->ack_cnt > delta) { ca->ack_cnt -= delta;
ca->tcp_cwnd++; }` loop of the TCP-friendliness block: returns the final
`ack_cnt` and the number of iterations.  For `delta > 0` this is exactly what
the loop computes; for `delta = 0` and `ack_cnt > 0` the C loop would not
terminate, and the model returns the state at loop entry. -/
def tcp_friendly_steps (delta a : Nat) : Nat × Nat :=
  if delta = 0 then (a, 0)
  else if a ≤ delta then (a, 0)
  else if a % delta = 0 then (delta, a / delta - 1)
  else (a % delta, a / delta)

/-- The `tcp_friendliness:` tail of `bictcp_update` (label through the final
`ca->cnt = max(ca->cnt, 2U)` floor), executed on every path that does not take
the rate-limit early return. -/
def friendly_floor (ca0 : BicState) (cwnd : Nat) : BicState :=
  let ca :=
    if tcp_friendliness ≠ 0 then
      let delta := u32 (cwnd * beta_scale) >>> 3
      let p := tcp_friendly_steps delta ca0.ack_cnt
      let ca1 := { ca0 with ack_cnt := p.1, tcp_cwnd := u32 (ca0.tcp_cwnd + p.2) }
      if cwnd < ca1.tcp_cwnd then
        if cwnd / (ca1.tcp_cwnd - cwnd) < ca1.cnt then
          { ca1 with cnt := cwnd / (ca1.tcp_cwnd - cwnd) }
        else ca1
      else ca1
    else ca0
  { ca with cnt := max ca.cnt 2 }

/-- Epoch opening inside `bictcp_update`: on `epoch_start == 0`, record the
epoch beginning and compute `bic_K` / `bic_origin_point`. -/
def cubic_epoch_open (ca1 : BicState) (cwnd acked jiffies : Nat) : BicState :=
  if ca1.epoch_start = 0 then
    if ca1.last_max_cwnd ≤ cwnd then
      { ca1 with epoch_start := jiffies, ack_cnt := acked, tcp_cwnd := cwnd,
                 bic_K := 0, bic_origin_point := cwnd }
    else
      { ca1 with epoch_start := jiffies, ack_cnt := acked, tcp_cwnd := cwnd,
                 bic_K := cubic_root (u64 (cube_factor * (ca1.last_max_cwnd - cwnd))),
                 bic_origin_point := ca1.last_max_cwnd }
  else ca1

/-- The cubic-target computation of `bictcp_update` and the resulting `cnt`:
`t` in `2^BICTCP_HZ` units, `|t - K|`, `delta = c/rtt * (t-K)^3`, the target
window, and `cnt = cwnd / (target - cwnd)` (or the near-flat `100 * cwnd`). -/
def cubic_cnt_calc (ca : BicState) (cwnd jiffies : Nat) : BicState :=
  let t := u64 (s32ToU64 (u32sub jiffies ca.epoch_start) + usecs_to_jiffies ca.delay_min)
             * 1024 % U64 / HZ
  let offs := if t < ca.bic_K then ca.bic_K - t else t - ca.bic_K
  let delta := u32 (u64 (u64 (u64 (cube_rtt_scale * offs) * offs) * offs) >>> 40)
  let target := if t < ca.bic_K then u32sub ca.bic_origin_point delta
                else u32 (ca.bic_origin_point + delta)
  if cwnd < target then { ca with cnt := cwnd / (target - cwnd) }
  else { ca with cnt := u32 (100 * cwnd) }

/-- The first-epoch cap of `bictcp_update`:
`if (ca->last_max_cwnd == 0 && ca->cnt > 20) ca->cnt = 20;`. -/
def cnt_cap_first_epoch (ca : BicState) : BicState :=
  if ca.last_max_cwnd = 0 ∧ 20 < ca.cnt then { ca with cnt := 20 } else ca

/-- The full cubic-function body of `bictcp_update` (bookkeeping, epoch
opening, target computation, first-epoch cap). -/
def cubic_calc (ca0 : BicState) (cwnd acked jiffies : Nat) : BicState :=
  cnt_cap_first_epoch
    (cubic_cnt_calc
      (cubic_epoch_open { ca0 with last_cwnd := cwnd, last_time := jiffies }
        cwnd acked jiffies)
      cwnd jiffies)

/-- Body of `bictcp_update` after the initial `ack_cnt += acked` accumulation:
the rate-limit early return, the once-per-jiffy shortcut straight to the
TCP-friendly blend, or the full cubic recomputation. -/
def bictcp_update_go (ca : BicState) (cwnd acked jiffies : Nat) : BicState :=
  if ca.last_cwnd = cwnd ∧ s32OfU32 (u32sub jiffies ca.last_time) ≤ ((HZ / 32 : Nat) : Int) then
    ca
  else if ca.epoch_start ≠ 0 ∧ jiffies = ca.last_time then friendly_floor ca cwnd
  else friendly_floor (cubic_calc ca cwnd acked jiffies) cwnd

/-- Function `static inline void bictcp_update(struct bictcp *ca, u32 cwnd, u32 acked)`
(identical in both variants); `jiffies` models the `tcp_jiffies32` clock read. -/
def bictcp_update (ca : BicState) (cwnd acked jiffies : Nat) : BicState :=
  bictcp_update_go { ca with ack_cnt := u32 (ca.ack_cnt + u32 acked) }
    (u32 cwnd) (u32 acked) (u32 jiffies)

/-- Function `bictcp_recalc_ssthresh` (SRC) / `cubictcp_recalc_ssthresh` (DEV): closes
the epoch, applies Wmax fast convergence, returns the new threshold.  `fc`
models the module parameter `fast_convergence` (default on). -/
def bictcp_recalc_ssthresh (ca : BicState) (cwnd0 : Nat) (fc : Bool) : BicState × Nat :=
  let cwnd := u32 cwnd0
  let ca := { ca with epoch_start := 0 }
  let ca :=
    if cwnd < ca.last_max_cwnd ∧ fc then
      { ca with last_max_cwnd := u32 (cwnd * (BICTCP_BETA_SCALE + beta)) / (2 * BICTCP_BETA_SCALE) }
    else { ca with last_max_cwnd := cwnd }
  (ca, max (u32 (cwnd * beta) / BICTCP_BETA_SCALE) 2)

/-- The `CA_EVENT_TX_START` arm of `bictcp_cwnd_event` (SRC) /
`cubictcp_cwnd_event` (DEV): after an application-limited idle period of
`delta = now - lsndtime > 0` jiffies, shift a non-zero `epoch_start` forward
by `delta`, clamped to `now`. -/
def bictcp_cwnd_event_tx_start (ca : BicState) (now0 lsndtime : Nat) : BicState :=
  let now := u32 now0
  if ca.epoch_start ≠ 0 ∧ 0 < s32OfU32 (u32sub now lsndtime) then
    let e := u32 (ca.epoch_start + u32sub now lsndtime)
    if after32 e now then { ca with epoch_start := now } else { ca with epoch_start := e }
  else ca

/-- Effect on the core fields of the per-ACK entry point `bictcp_acked`
(SRC) / `cubictcp_acked` (DEV): drop samples without a timestamp
(`rtt_us < 0`), discard delay samples within `HZ` jiffies after fast
recovery, floor a zero delay to 1 (after the `u32` narrowing of the `long`
sample), and track the running minimum in `delay_min`.  The detector
dispatch that follows in the C function writes only the detector blocks and
transport fields, so this is the whole effect of the call on `BicState`. -/
def bictcp_acked_core (ca : BicState) (rtt_us : Int) (jiffies : Nat) : BicState :=
  if rtt_us < 0 then ca
  else if ca.epoch_start ≠ 0 ∧ s32OfU32 (u32sub jiffies ca.epoch_start) < (HZ : Int) then ca
  else
    let delay0 := rtt_us.toNat % U32
    let delay := if delay0 = 0 then 1 else delay0
    if ca.delay_min = 0 ∨ delay < ca.delay_min then { ca with delay_min := delay } else ca

/-- Core states reachable through the operations of the engine itself: fresh
initialization (`bictcp_init` / the `TCP_CA_Loss` reset, both of which leave
the core fields all-zero), window updates, threshold recalculation, the
TX-start idle adjustment, and the per-ACK `bictcp_acked` / `cubictcp_acked`
transition, whose effect on these core fields is the `delay_min`
minimum-RTT update modelled by `bictcp_acked_core` (the detector dispatch it
performs touches only the detector blocks and transport fields). -/
inductive ReachableBic : BicState → Prop
  | init : ReachableBic initBic
  | update (s : BicState) (cwnd acked jiffies : Nat) :
      ReachableBic s → ReachableBic (bictcp_update s cwnd acked jiffies)
  | recalc (s : BicState) (cwnd : Nat) (fc : Bool) :
      ReachableBic s → ReachableBic (bictcp_recalc_ssthresh s cwnd fc).1
  | tx_start (s : BicState) (now lsndtime : Nat) :
      ReachableBic s → ReachableBic (bictcp_cwnd_event_tx_start s now lsndtime)
  | acked (s : BicState) (rtt_us : Int) (jiffies : Nat) :
      ReachableBic s → ReachableBic (bictcp_acked_core s rtt_us jiffies)

/-! ## SRC variant: the SEARCH detector of `tcp_cubic_search.c`

Module-parameter defaults: `slow_start_mode = SS_EXIT_POINT_SEARCH`,
`search_window_size_time = 35`, `search_thresh = 35`, `cwnd_rollback = 0`. -/

def SEARCH_BINS : Nat := 10

def SEARCH_EXTRA_BINS : Nat := 15

def SEARCH_TOTAL_BINS : Nat := 25

def MAX_US_INT : Nat := 65535

def search_window_size_time : Nat := 35

def search_thresh : Nat := 35

def cwnd_rollback : Nat := 0

def TCP_INIT_CWND : Nat := 10

/-- The SEARCH arm of the SRC union: `bin_duration_us`, `curr_idx` (an `s32`,
initialized to -1), `bin_end_us`, the 25-entry `u16` bin array (modelled as a
function on indices 0..24), and the `u8` `scale_factor`. -/
structure SearchSt where
  bin_duration_us : Nat
  curr_idx : Int
  bin_end_us : Nat
  bins : Nat → Nat
  scale_factor : Nat

/-- State after `bictcp_search_reset`. -/
def searchReset : SearchSt := ⟨0, -1, 0, fun _ => 0, 0⟩

/-- A store to `bin[i]` (a `u16` slot, hence the mod-65536 truncation). -/
def binWrite (bins : Nat → Nat) (i v : Nat) : Nat → Nat :=
  fun j => if j = i then v % 65536 else bins j

/-- Index `i % m` as the C `%` computes it on the (non-negative) indices at which
the code evaluates it. -/
def idxMod (i : Int) (m : Nat) : Nat := (i % (m : Int)).toNat

/-- Computation `passed_bins = ((now_us - bin_end_us) / bin_duration_us) + 1` (all `u32`;
the caller guarantees `bin_duration_us > 0`). -/
def passed_bins (s : SearchSt) (now : Nat) : Nat :=
  u32sub now s.bin_end_us / s.bin_duration_us + 1

/-- The missed-bin fill loop of `search_update_bins`:
`for (i = curr_idx + 1; i < curr_idx + passed_bins; i++)
   bin[i % 25] = curr_idx >= 0 ? bin[curr_idx] : 0;`
run for `count = passed_bins - 1` iterations starting at `i`, with the carried
value re-read from the evolving array each iteration exactly as the C does
(the raw, un-wrapped read `bin[curr_idx]` is only within the array when
`curr_idx < 25`, which the theorems below assume). -/
def searchFill : Nat → (Nat → Nat) → Int → Int → (Nat → Nat)
  | 0, bins, _, _ => bins
  | count + 1, bins, i, ci =>
      searchFill count
        (binWrite bins (idxMod i 25) (if 0 ≤ ci then bins ci.toNat else 0)) (i + 1) ci

/-- The `while (bin_value > MAX_US_INT) { shift_amount += 1; bin_value >>= 1; }`
rescale loop, with enough structural fuel for any `u64` input; returns the
shrunk value and the shift amount. -/
def shrinkLoop : Nat → Nat → Nat × Nat
  | 0, bv => (bv, 0)
  | fuel + 1, bv =>
      if MAX_US_INT < bv then
        let p := shrinkLoop fuel (bv / 2)
        (p.1, p.2 + 1)
      else (bv, 0)

/-- Function `search_update_bins` of the SRC variant.  The source text contains a stray
`break` between the reset call and the `else` branch (the spec flags this
fragment as a known defect); the embedding follows the enclosing `if`/`else`
structure, with execution falling through to the common tail in both branches.
`bytes_acked` is `tp->bytes_acked`. -/
def search_update_bins (s : SearchSt) (now bytes_acked : Nat) : SearchSt :=
  let passed := passed_bins s now
  let s1 := if 3 ≤ passed then searchReset
            else { s with bins := searchFill (passed - 1) s.bins (s.curr_idx + 1) s.curr_idx }
  let s2 := { s1 with bin_end_us := u32 (s1.bin_end_us + passed * s1.bin_duration_us),
                      curr_idx := s1.curr_idx + (passed : Int) }
  let bv0 := u64 bytes_acked >>> s2.scale_factor
  let p := if MAX_US_INT < bv0 then shrinkLoop 64 bv0 else (bv0, 0)
  let s3 := if MAX_US_INT < bv0 then
      { s2 with bins := fun j => s2.bins j >>> p.2,
                scale_factor := (s2.scale_factor + p.2) % 256 }
    else s2
  { s3 with bins := binWrite s3.bins (idxMod s3.curr_idx 25) p.1 }

/-- Function `search_compute_delivered_window`.  The `u16` bin reads promote to `int`;
the products with the `u32` `fraction` are computed in `u32`, the running
`delivered` in `u64`, exactly as the C conversions dictate. -/
def search_compute_delivered_window (s : SearchSt) (index1 index2 : Int) (fraction : Nat) : Nat :=
  let d0 := u64sub (s.bins (idxMod (index2 - 1) 25)) (s.bins (idxMod index1 25))
  let d1 := if index1 = 0 then
      u64 (d0 + u32 (s.bins (idxMod index1 25) * fraction) / 100)
    else
      u64 (d0 + u32 (u32sub (s.bins (idxMod index1 25)) (s.bins (idxMod (index1 - 1) 25))
                       * fraction) / 100)
  u64 (d1 + u32 (u32sub (s.bins (idxMod index2 25)) (s.bins (idxMod (index2 - 1) 25))
                   * (100 - fraction)) / 100)

/-- Computation `norm_diff = ((2 * prev_delv_bytes) - curr_delv_bytes) * 100
/ (2 * prev_delv_bytes)` — `u64` arithmetic, result stored into an `s32`. -/
def norm_diff (prev curr : Nat) : Int :=
  s32OfU32 (u64 (u64sub (2 * prev) curr * 100) / u64 (2 * prev))

/-- The slow-start exit condition of `search_update`:
`(2 * prev_delv_bytes) >= curr_delv_bytes && norm_diff >= search_thresh`. -/
def search_exit_condition (prev curr : Nat) : Bool :=
  decide (u64 curr ≤ u64 (2 * prev)) && decide ((search_thresh : Int) ≤ norm_diff prev curr)

/-- Function `search_exit_slow_start` of the SRC variant: the optional `cwnd` rollback
(disabled by default, `cwnd_rollback = 0`), then `tp->snd_ssthresh =
tp->snd_cwnd`.  Returns the new `(snd_cwnd, snd_ssthresh)`. -/
def search_exit_slow_start (s : SearchSt) (cwnd mss : Nat) : Nat × Nat :=
  if cwnd_rollback = 1 then
    let initial_rtt := u32 (s.bin_duration_us * SEARCH_BINS * 10) / search_window_size_time
    let cong_idx := s.curr_idx - ((2 * initial_rtt / s.bin_duration_us : Nat) : Int)
    let overshoot := search_compute_delivered_window s cong_idx s.curr_idx 0
    let overshoot_cwnd := overshoot / mss
    let cwnd' := if overshoot_cwnd < cwnd then max (cwnd - overshoot_cwnd) TCP_INIT_CWND
                 else TCP_INIT_CWND
    (cwnd', cwnd')
  else (cwnd, cwnd)

/-! ## SRC variant: whole-flow state and the `TCP_CA_Loss` transition -/

/-- The HyStart arm of the per-flow state (same fields in both variants). -/
structure HystartSt where
  sample_cnt : Nat
  found : Nat
  round_start : Nat
  end_seq : Nat
  last_ack : Nat
  curr_rtt : Nat
  deriving DecidableEq, Repr

/-- The SRC `struct bictcp`, in the logical (tagged) view of its union: the
CUBIC core plus both detector arms. -/
structure SrcFlow where
  core : BicState
  hystart : HystartSt
  search : SearchSt

/-- SRC `bictcp_reset`: zeroes the core fields and `hystart.found`. -/
def src_bictcp_reset (f : SrcFlow) : SrcFlow :=
  { f with core := initBic, hystart := { f.hystart with found := 0 } }

/-- The round reset performed by `bictcp_hystart_reset` (both variants):
`round_start = last_ack = now`, `end_seq = snd_nxt`, `curr_rtt = ~0U`,
`sample_cnt = 0`. -/
def hystartRoundReset (h : HystartSt) (now snd_nxt : Nat) : HystartSt :=
  { h with round_start := u32 now, last_ack := u32 now, end_seq := u32 snd_nxt,
           curr_rtt := 4294967295, sample_cnt := 0 }

/-- SRC `bictcp_hystart_reset`. -/
def src_hystart_reset (f : SrcFlow) (now snd_nxt : Nat) : SrcFlow :=
  { f with hystart := hystartRoundReset f.hystart now snd_nxt }

/-- SRC `bictcp_state` on `new_state == TCP_CA_Loss`: `bictcp_reset`, then
`bictcp_search_reset`, then `bictcp_hystart_reset`. -/
def bictcp_state_loss (f : SrcFlow) (now snd_nxt : Nat) : SrcFlow :=
  src_hystart_reset { (src_bictcp_reset f) with search := searchReset } now snd_nxt

/-! ## DEV variant: `tcp_cubic.c` flow state, loss transition and SEARCH

Module-parameter defaults: `search_enable_mode = 2`, `max_rtt_factor = 350`,
`search_exit_thresh = 25`, `search_double_cross_exit = 0`, `hystart = 0`. -/

def TOTAL_NUM_BINS : Nat := 30

def LOOK_BACK_WINDOW : Nat := 10

def SCALE_FACTOR_100 : Nat := 100

def max_rtt_factor : Nat := 350

def search_exit_thresh : Nat := 25

def search_double_cross_exit : Nat := 0

def search_enable_mode : Nat := 2

def FOUND_SSTHRESH_SEARCH : Nat := 2

def FOUND_SNDCLAMP_SEARCH : Nat := 3

/-- The DEV `struct bictcp`: CUBIC core, `loss_cwnd`, the HyStart block, and
the SEARCH block whose `u32 *bins` heap buffer is `none` when `kcalloc`
failed (a NULL pointer). -/
structure DevFlow where
  core : BicState
  loss_cwnd : Nat
  hystart : HystartSt
  epoch_dur_us : Nat
  epoch_expires_us : Nat
  start_tm_us : Nat
  index : Nat
  bins : Option (Nat → Nat)
  bytes_acked_prev : Nat
  factor : Int

/-- The transport-stack inputs the DEV SEARCH path reads and writes. -/
structure DevTp where
  bytes_acked : Nat
  rate_app_limited : Bool
  snd_cwnd : Nat
  snd_ssthresh : Nat
  snd_cwnd_clamp : Nat
  mss_cache : Nat
  min_rtt : Nat
  deriving Repr

/-- DEV `bictcp_reset`: `memset(ca, 0, offsetof(struct bictcp, unused))`
zeroes the core fields and `loss_cwnd`; then `ca->found = 0`.  The HyStart
round fields and the whole SEARCH block are NOT touched. -/
def dev_bictcp_reset (f : DevFlow) : DevFlow :=
  { f with core := initBic, loss_cwnd := 0, hystart := { f.hystart with found := 0 } }

/-- DEV `bictcp_hystart_reset`. -/
def dev_hystart_reset (f : DevFlow) (now snd_nxt : Nat) : DevFlow :=
  { f with hystart := hystartRoundReset f.hystart now snd_nxt }

/-- DEV `cubictcp_state` on `new_state == TCP_CA_Loss`: `bictcp_reset` then
`bictcp_hystart_reset` — and nothing else. -/
def cubictcp_state_loss (f : DevFlow) (now snd_nxt : Nat) : DevFlow :=
  dev_hystart_reset (dev_bictcp_reset f) now snd_nxt

/-- DEV `bictcp_search_reset`: derive the bin duration from the minimum RTT,
restart the epoch clock, and (re)try the `kcalloc` of the bin buffer when it
is missing; `alloc` is the answer of the allocator (`none` = allocation failed).
A non-NULL buffer is zeroed. -/
def dev_search_reset (f : DevFlow) (tp : DevTp) (now : Nat) (alloc : Option (Nat → Nat)) :
    DevFlow :=
  let dur := if tp.min_rtt = 4294967295 then 0
             else u32 (tp.min_rtt * max_rtt_factor) / SCALE_FACTOR_100 / LOOK_BACK_WINDOW
  let bins1 := match f.bins with
               | none => alloc
               | some b => some b
  let bins2 := match bins1 with
               | none => none
               | some _ => some (fun _ : Nat => (0 : Nat))
  { f with epoch_dur_us := dur, epoch_expires_us := u32 (now + dur),
           bytes_acked_prev := tp.bytes_acked, index := 0, bins := bins2 }

/-- Function `get_window_sum(array, start, end, len)`:
`for (i = start; i <= end; ++i) total += array[i % len];`. -/
def get_window_sum (array : Nat → Nat) (start endIdx len : Nat) : Nat :=
  ((List.range (endIdx + 1 - start)).map (fun k => array ((start + k) % len))).sum

/-- The C `(s32)` cast of an `s64` value. -/
def s32cast (v : Int) : Int := s32OfU32 (Int.toNat (v % (U32 : Int)))

/-- DEV `search_exit_slowstart`: decides whether to leave slow start from the
two windowed delivered-byte sums.  `none` models a kernel crash: the `BUG()`
on a zero bin duration, or the dereference of a NULL `bins` buffer by
`get_window_sum`.  Early returns happen before any buffer access and yield
`(false, ca->factor)` with the stored factor unchanged; the normal exit
writes the newly computed factor.  (The C index arithmetic mixes `s32` and
`u32`; on every path that reaches it the quantities involved are provably
non-negative, and the embedding uses exact integers.) -/
def search_exit_slowstart (f : DevFlow) (tp : DevTp) (delay : Nat) : Option (Bool × Int) :=
  if tp.rate_app_limited then some (false, f.factor)
  else if f.epoch_dur_us = 0 then none
  else
    let index : Int := s32OfU32 (u32sub f.index 1)
    let index_prev : Int := index - ((delay / f.epoch_dur_us : Nat) : Int)
    if index_prev < (TOTAL_NUM_BINS : Int) - 1 then some (false, f.factor)
    else
      let left : Nat := (index_prev - (LOOK_BACK_WINDOW : Int) + 1).toNat
      if index - (left : Int) + 1 < (TOTAL_NUM_BINS : Int) then some (false, f.factor)
      else
        match f.bins with
        | none => none
        | some bins =>
          let total_pre := get_window_sum bins left index_prev.toNat TOTAL_NUM_BINS
          let total := get_window_sum bins (index - (LOOK_BACK_WINDOW : Int) + 1).toNat
                         index.toNat TOTAL_NUM_BINS
          if total_pre = 0 then some (false, f.factor)
          else
            let factor := s32cast (Int.tdiv ((2 * (total_pre : Int) - (total : Int))
                            * (SCALE_FACTOR_100 : Int)) (2 * (total_pre : Int)))
            let rc := if search_double_cross_exit ≠ 0 then
                decide ((search_exit_thresh : Int) ≤ f.factor)
                  && decide ((search_exit_thresh : Int) ≤ factor)
              else decide ((search_exit_thresh : Int) ≤ factor)
            some (rc, factor)

/-- The long-idle catch-up loop of `hystart_search_update`:
`while (last_epoch_expires + epoch_dur < now) { index += 1;
bins[index % 30] = 0; last_epoch_expires += epoch_dur; }`, with structural
fuel; a write through a NULL `bins` is `none`. -/
def dev_fill : Nat → Option (Nat → Nat) → Nat → Nat → Nat → Nat →
    Option (Option (Nat → Nat) × Nat × Nat)
  | 0, ob, idx, last, _, _ => some (ob, idx, last)
  | fuel + 1, ob, idx, last, dur, now =>
      if u32 (last + dur) < now then
        match ob with
        | none => none
        | some b =>
            let idx1 := u32 (idx + 1)
            dev_fill fuel (some (fun j => if j = idx1 % 30 then 0 else b j)) idx1
              (u32 (last + dur)) dur now
      else some (ob, idx, last)

/-- DEV `hystart_search_update` (the per-ACK SEARCH entry point, called from
`cubictcp_acked` whenever `search_enable_mode && tcp_in_slow_start(tp)`).
`none` models a kernel crash on a NULL `bins` buffer dereference. -/
def hystart_search_update (f0 : DevFlow) (tp : DevTp) (now rtt_us : Nat)
    (alloc : Option (Nat → Nat)) : Option (DevFlow × DevTp) :=
  if f0.hystart.found ≠ 0 then some (f0, tp)
  else
    let f1 := if f0.epoch_expires_us = 0 ∨ f0.epoch_dur_us = 0
              then dev_search_reset f0 tp now alloc else f0
    let f2 := { f1 with epoch_dur_us := if f1.epoch_dur_us = 0 then 1 else f1.epoch_dur_us }
    if f2.epoch_expires_us ≤ now then
      match dev_fill (now + 1) f2.bins f2.index (u32sub f2.epoch_expires_us f2.epoch_dur_us)
              f2.epoch_dur_us now with
      | none => none
      | some (bins1, idx1, last1) =>
        let f3 := { f2 with bins := bins1, index := idx1 }
        match search_exit_slowstart f3 tp rtt_us with
        | none => none
        | some (rc, newFactor) =>
          let f4 := { f3 with factor := newFactor }
          if rc then
            let tp1 := { tp with snd_ssthresh := max tp.snd_cwnd 10 }
            let clampv := max (tp.snd_cwnd + (tp.snd_cwnd >>> 3)) (64 * 1024 / tp.mss_cache)
            if search_enable_mode = 2 then
              some ({ f4 with hystart := { f4.hystart with found := FOUND_SNDCLAMP_SEARCH } },
                { tp1 with snd_cwnd_clamp := clampv })
            else
              some ({ f4 with hystart := { f4.hystart with found := FOUND_SSTHRESH_SEARCH } },
                tp1)
          else
            let f5 := { f4 with epoch_expires_us := u32 (last1 + f4.epoch_dur_us) }
            match f5.bins with
            | none => none
            | some b =>
              let nb := fun j => if j = f5.index % 30
                then u32 (b j + u64sub tp.bytes_acked f5.bytes_acked_prev) else b j
              some ({ f5 with bytes_acked_prev := tp.bytes_acked, bins := some nb }, tp)
    else
      match f2.bins with
      | none => none
      | some b =>
        let nb := fun j => if j = f2.index % 30
          then u32 (b j + u64sub tp.bytes_acked f2.bytes_acked_prev) else b j
        some ({ f2 with bytes_acked_prev := tp.bytes_acked, bins := some nb }, tp)

/-! ## Auxiliary definitions for the claims -/

/-- Core states reachable from a fresh flow by `bictcp_update` alone (no
threshold recalculation, i.e. no window-reduction event yet): the genuinely
first-epoch states. -/
inductive ReachableFirstEpoch : BicState → Prop
  | init : ReachableFirstEpoch initBic
  | update (s : BicState) (cwnd acked jiffies : Nat) :
      ReachableFirstEpoch s → ReachableFirstEpoch (bictcp_update s cwnd acked jiffies)

/-- Predicate: `cubic_root(y^3)` cubed is within 1% of `y^3`. -/
def cubeErrOK (y : Nat) : Bool :=
  let c := y * y * y
  let r := cubic_root c
  let rc := r * r * r
  1000 * (max rc c - min rc c) ≤ 10 * c

/-- Balanced-recursion checker: `cubeErrOK y` holds for every `y` in
`[lo, hi)` (fuel-bounded divide and conquer, so that kernel evaluation
recurses only logarithmically deep). -/
def checkCubes : Nat → Nat → Nat → Bool
  | 0, lo, hi => decide (hi ≤ lo)
  | fuel + 1, lo, hi =>
    if hi ≤ lo then true
    else if hi = lo + 1 then cubeErrOK lo
    else checkCubes fuel lo ((lo + hi) / 2) && checkCubes fuel ((lo + hi) / 2) hi

/-- A reachable core state with `last_max_cwnd = 0` but `cnt = 10000`:
grow from a 200-segment ceiling at `cwnd = 100` (the cubic target lands on
`cwnd` itself, so `cnt = 100 * cwnd`), then a loss at `cwnd = 1` fast-converges
`last_max_cwnd` to `(1 * 1741) / 2048 = 0`. -/
def cexBic : BicState :=
  (bictcp_recalc_ssthresh
    (bictcp_update (bictcp_recalc_ssthresh initBic 200 true).1 100 1 100) 1 true).1

/-- A SEARCH detector state with live history in bin 7 and 3 missed bin
boundaries pending at `now = 1350`. -/
def cexSearch : SearchSt :=
  ⟨100, 5, 1000, fun j => if j = 7 then 42 else 9, 0⟩

/-- A DEV flow with non-trivial CUBIC and SEARCH state, for the loss
transition. -/
def cexDevLoss : DevFlow :=
  ⟨⟨1, 2, 3, 4, 5, 6, 7, 8, 9, 10⟩, 11, ⟨1, 2, 3, 4, 5, 6⟩, 100, 1000, 0, 7,
   some (fun j => if j = 3 then 42 else 1), 555, 12⟩

/-- A DEV flow whose bin buffer allocation failed (`bins = none`) with an
otherwise initialized detector (`epoch_dur_us = 100`,
`epoch_expires_us = 1000`). -/
def cexDevNoBuf : DevFlow :=
  ⟨initBic, 0, ⟨0, 0, 0, 0, 0, 0⟩, 100, 1000, 0, 0, none, 0, 0⟩

/-- Transport inputs for the allocation-failure scenario: 5000 bytes acked,
not application-limited. -/
def cexDevNoBufTp : DevTp := ⟨5000, false, 50, 100, 200, 1000, 20000⟩

/-! ## Specification of `fls64` -/

theorem flsStep_chain (c k : Nat) (a : Nat) (p : Nat × Nat) (hc : c = 2 ^ k)
    (h1 : p.1 = a / 2 ^ p.2) (h2 : p.1 < 2 ^ (2 * k)) (h3 : 0 < a → 0 < p.1) :
    (flsStep c k p).1 = a / 2 ^ (flsStep c k p).2 ∧
      (flsStep c k p).1 < 2 ^ k ∧ (0 < a → 0 < (flsStep c k p).1) := by
  subst hc
  have hk : 0 < (2 : Nat) ^ k := pow_pos (by norm_num) k
  simp only [flsStep]
  split_ifs with hle
  · refine ⟨?_, ?_, ?_⟩
    · simp only
      rw [h1, Nat.div_div_eq_div_mul, ← pow_add]
    · simp only
      rw [Nat.div_lt_iff_lt_mul hk]
      calc p.1 < 2 ^ (2 * k) := h2
        _ = 2 ^ k * 2 ^ k := by rw [two_mul, pow_add]
    · intro _
      simp only
      exact (Nat.one_le_div_iff hk).2 hle
  · exact ⟨h1, lt_of_not_le hle, h3⟩

theorem fls64_spec (a : Nat) (ha : a < U64) :
    a < 2 ^ fls64 a ∧ (0 < a → 2 ^ (fls64 a - 1) ≤ a) := by
  have hmod : a % U64 = a := Nat.mod_eq_of_lt ha
  have ha' : a < 2 ^ 64 := by
    have : U64 = 2 ^ 64 := by norm_num [U64]
    omega
  have s1 := flsStep_chain 4294967296 32 a ((a % U64, 0) : Nat × Nat) (by norm_num)
    (by simp [hmod]) (by simpa [hmod] using (by omega : a < 2 ^ (2 * 32)))
    (fun h => by simpa [hmod] using h)
  have s2 := flsStep_chain 65536 16 a _ (by norm_num) s1.1
    (by simpa using s1.2.1) s1.2.2
  have s3 := flsStep_chain 256 8 a _ (by norm_num) s2.1
    (by simpa using s2.2.1) s2.2.2
  have s4 := flsStep_chain 16 4 a _ (by norm_num) s3.1
    (by simpa using s3.2.1) s3.2.2
  have s5 := flsStep_chain 4 2 a _ (by norm_num) s4.1
    (by simpa using s4.2.1) s4.2.2
  have s6 := flsStep_chain 2 1 a _ (by norm_num) s5.1
    (by simpa using s5.2.1) s5.2.2
  have hfls : fls64 a = (flsStep 2 1 (flsStep 4 2 (flsStep 16 4 (flsStep 256 8
      (flsStep 65536 16 (flsStep 4294967296 32 (a % U64, 0))))))).2 +
      (flsStep 2 1 (flsStep 4 2 (flsStep 16 4 (flsStep 256 8
      (flsStep 65536 16 (flsStep 4294967296 32 (a % U64, 0))))))).1 := rfl
  set p := flsStep 2 1 (flsStep 4 2 (flsStep 16 4 (flsStep 256 8
      (flsStep 65536 16 (flsStep 4294967296 32 (a % U64, 0)))))) with hp
  have hpe : p.1 = a / 2 ^ p.2 := s6.1
  have hpl : p.1 < 2 := by simpa using s6.2.1
  have hpk : 0 < (2 : Nat) ^ p.2 := pow_pos (by norm_num) p.2
  constructor
  · rcases (by omega : p.1 = 0 ∨ p.1 = 1) with h | h
    · have hz : a / 2 ^ p.2 = 0 := by rw [← hpe, h]
      have hlt : a < 2 ^ p.2 := by
        have hd := Nat.div_add_mod a (2 ^ p.2)
        have hm := Nat.mod_lt a hpk
        rw [hz, Nat.mul_zero, Nat.zero_add] at hd
        omega
      rw [hfls, h]
      simpa using hlt
    · have ho : a / 2 ^ p.2 = 1 := by rw [← hpe, h]
      have h2 : a < 2 * 2 ^ p.2 := (Nat.div_lt_iff_lt_mul hpk).1 (by omega)
      rw [hfls, h]
      calc a < 2 * 2 ^ p.2 := h2
        _ = 2 ^ (p.2 + 1) := by ring
  · intro hpos
    have hp1 : p.1 = 1 := by have := s6.2.2 hpos; omega
    have ho : a / 2 ^ p.2 = 1 := by rw [← hpe, hp1]
    have hle : 2 ^ p.2 ≤ a := (Nat.one_le_div_iff hpk).1 (by omega)
    rw [hfls, hp1]
    simpa using hle

theorem fls64_lt_two_pow (a : Nat) (ha : a < U64) : a < 2 ^ fls64 a :=
  (fls64_spec a ha).1

theorem fls64_two_pow_le (a : Nat) (h0 : 0 < a) (ha : a < U64) :
    2 ^ (fls64 a - 1) ≤ a :=
  (fls64_spec a ha).2 h0

theorem fls64_le_64 (a : Nat) (ha : a < U64) : fls64 a ≤ 64 := by
  rcases Nat.eq_zero_or_pos a with h0 | h0
  · subst h0; decide
  · have h := fls64_two_pow_le a h0 ha
    have ha' : a < 2 ^ 64 := by
      have : U64 = 2 ^ 64 := by norm_num [U64]
      omega
    by_contra hgt
    have : 2 ^ 64 ≤ 2 ^ (fls64 a - 1) := Nat.pow_le_pow_right (by norm_num) (by omega)
    omega

theorem fls64_ge_seven (a : Nat) (h64 : 64 ≤ a) (ha : a < U64) : 7 ≤ fls64 a := by
  have h := fls64_lt_two_pow a ha
  by_contra hlt
  have : 2 ^ fls64 a ≤ 2 ^ 6 := Nat.pow_le_pow_right (by norm_num) (by omega)
  omega

theorem fls64_lt_seven (a : Nat) (h : a < 64) : fls64 a < 7 := by
  rcases Nat.eq_zero_or_pos a with h0 | h0
  · subst h0; decide
  · have hle := fls64_two_pow_le a h0 (by norm_num [U64]; omega)
    by_contra hge
    have : 2 ^ 6 ≤ 2 ^ (fls64 a - 1) := Nat.pow_le_pow_right (by norm_num) (by omega)
    omega

/-! ## Totality facts about `cubic_root` (claim C10) -/

/-- For every bit length `b` in `[7, 64]`, the derived exponent
`b' = ((b*84) >> 8) - 1` satisfies `1 ≤ b' ≤ 20` and `3*b' + 4 ≤ b ≤ 3*b' + 6`
(so the shifted index keeps between 4 and 6 significant bits). -/
theorem fls_index_bounds : ∀ b : Nat, b < 65 → 7 ≤ b →
    1 ≤ ((b * 84) >>> 8) - 1 ∧ ((b * 84) >>> 8) - 1 ≤ 20 ∧
    3 * (((b * 84) >>> 8) - 1) + 4 ≤ b ∧ b ≤ 3 * (((b * 84) >>> 8) - 1) + 6 := by decide

theorem vTab_ge_123 : ∀ i : Nat, i < 64 → 8 ≤ i → 123 ≤ vTab i := by decide

theorem vTab_le_254 (i : Nat) : vTab i ≤ 254 := by
  by_cases h : i < 64
  · exact (by decide : ∀ j : Nat, j < 64 → vTab j ≤ 254) i h
  · have hlen : cubicTable.length ≤ i := by
      have : cubicTable.length = 64 := by decide
      omega
    simp [vTab, List.getD, List.getElem?_eq_none hlen]

theorem cubicRootShift_eq (a : Nat) (ha : a < U64) :
    cubicRootShift a = u32 (a / 2 ^ ((((fls64 a * 84) >>> 8) - 1) * 3)) := by
  rw [cubicRootShift, Nat.mod_eq_of_lt ha, Nat.shiftRight_eq_div_pow]

theorem cubicRootShift_bounds (a : Nat) (h64 : 64 ≤ a) (ha : a < U64) :
    8 ≤ cubicRootShift a ∧ cubicRootShift a < 64 := by
  have hb7 : 7 ≤ fls64 a := fls64_ge_seven a h64 ha
  have hb64 : fls64 a ≤ 64 := fls64_le_64 a ha
  obtain ⟨hb1ge, hb1le, hlow, hhigh⟩ := fls_index_bounds (fls64 a) (by omega) hb7
  have hupper : a < 2 ^ fls64 a := fls64_lt_two_pow a ha
  have hlower : 2 ^ (fls64 a - 1) ≤ a := fls64_two_pow_le a (by omega) ha
  have hpos : 0 < (2 : Nat) ^ ((((fls64 a * 84) >>> 8) - 1) * 3) := pow_pos (by norm_num) _
  have hdivlt : a / 2 ^ ((((fls64 a * 84) >>> 8) - 1) * 3) < 64 := by
    refine (Nat.div_lt_iff_lt_mul hpos).2 ?_
    calc a < 2 ^ fls64 a := hupper
      _ ≤ 2 ^ ((((fls64 a * 84) >>> 8) - 1) * 3 + 6) :=
          Nat.pow_le_pow_right (by norm_num) (by omega)
      _ = 64 * 2 ^ ((((fls64 a * 84) >>> 8) - 1) * 3) := by rw [pow_add]; ring
  have hdivge : 8 ≤ a / 2 ^ ((((fls64 a * 84) >>> 8) - 1) * 3) := by
    refine (Nat.le_div_iff_mul_le hpos).2 ?_
    calc (8 : Nat) * 2 ^ ((((fls64 a * 84) >>> 8) - 1) * 3)
        = 2 ^ ((((fls64 a * 84) >>> 8) - 1) * 3 + 3) := by rw [pow_add]; ring
      _ ≤ 2 ^ (fls64 a - 1) := Nat.pow_le_pow_right (by norm_num) (by omega)
      _ ≤ a := hlower
  have hu : u32 (a / 2 ^ ((((fls64 a * 84) >>> 8) - 1) * 3))
      = a / 2 ^ ((((fls64 a * 84) >>> 8) - 1) * 3) := by
    unfold u32
    exact Nat.mod_eq_of_lt (by unfold U32; omega)
  rw [cubicRootShift_eq a ha, hu]
  exact ⟨hdivge, hdivlt⟩

theorem cubicRootEstimate_eq (a : Nat) (ha : a < U64) :
    cubicRootEstimate a
      = u32 ((vTab (cubicRootShift a) + 10) * 2 ^ (((fls64 a * 84) >>> 8) - 1)) / 64 := by
  rw [cubicRootEstimate, Nat.mod_eq_of_lt ha, Nat.shiftLeft_eq, Nat.shiftRight_eq_div_pow]

theorem cubicRootEstimate_ge (a : Nat) (h64 : 64 ≤ a) (ha : a < U64) :
    4 ≤ cubicRootEstimate a := by
  have hb7 : 7 ≤ fls64 a := fls64_ge_seven a h64 ha
  have hb64 : fls64 a ≤ 64 := fls64_le_64 a ha
  obtain ⟨hb1ge, hb1le, _, _⟩ := fls_index_bounds (fls64 a) (by omega) hb7
  obtain ⟨hs8, hs64⟩ := cubicRootShift_bounds a h64 ha
  have hv123 : 123 ≤ vTab (cubicRootShift a) := vTab_ge_123 _ hs64 hs8
  have hv254 : vTab (cubicRootShift a) ≤ 254 := vTab_le_254 _
  have hpowle : (2 : Nat) ^ (((fls64 a * 84) >>> 8) - 1) ≤ 2 ^ 20 :=
    Nat.pow_le_pow_right (by norm_num) hb1le
  have hpowge : (2 : Nat) ^ 1 ≤ 2 ^ (((fls64 a * 84) >>> 8) - 1) :=
    Nat.pow_le_pow_right (by norm_num) hb1ge
  have hfit : (vTab (cubicRootShift a) + 10) * 2 ^ (((fls64 a * 84) >>> 8) - 1) < U32 := by
    calc (vTab (cubicRootShift a) + 10) * 2 ^ (((fls64 a * 84) >>> 8) - 1)
        ≤ 264 * 2 ^ 20 := Nat.mul_le_mul (by omega) hpowle
      _ < U32 := by unfold U32; norm_num
  have hu : u32 ((vTab (cubicRootShift a) + 10) * 2 ^ (((fls64 a * 84) >>> 8) - 1))
      = (vTab (cubicRootShift a) + 10) * 2 ^ (((fls64 a * 84) >>> 8) - 1) := by
    unfold u32
    exact Nat.mod_eq_of_lt hfit
  have hbig : 266 ≤ (vTab (cubicRootShift a) + 10) * 2 ^ (((fls64 a * 84) >>> 8) - 1) := by
    calc (266 : Nat) = 133 * 2 ^ 1 := by norm_num
      _ ≤ (vTab (cubicRootShift a) + 10) * 2 ^ (((fls64 a * 84) >>> 8) - 1) :=
          Nat.mul_le_mul (by omega) hpowge
  rw [cubicRootEstimate_eq a ha, hu]
  calc (4 : Nat) = 266 / 64 := by norm_num
    _ ≤ (vTab (cubicRootShift a) + 10) * 2 ^ (((fls64 a * 84) >>> 8) - 1) / 64 :=
        Nat.div_le_div_right hbig

/-! ### Structural lemmas about `bictcp_update` -/

theorem friendly_floor_cnt_ge (ca : BicState) (cwnd : Nat) :
    2 ≤ (friendly_floor ca cwnd).cnt := by
  simp only [friendly_floor]
  split_ifs <;> exact Nat.le_max_right _ 2

theorem friendly_floor_cnt_le (ca : BicState) (cwnd : Nat) (h : ca.cnt ≤ 20) :
    (friendly_floor ca cwnd).cnt ≤ 20 := by
  simp only [friendly_floor]
  split_ifs with h1 h2 h3 <;> (try dsimp only at *) <;> omega

theorem friendly_floor_last_max_cwnd (ca : BicState) (cwnd : Nat) :
    (friendly_floor ca cwnd).last_max_cwnd = ca.last_max_cwnd := by
  simp only [friendly_floor]
  split_ifs <;> rfl

theorem cubic_epoch_open_last_max_cwnd (ca : BicState) (cwnd acked jiffies : Nat) :
    (cubic_epoch_open ca cwnd acked jiffies).last_max_cwnd = ca.last_max_cwnd := by
  simp only [cubic_epoch_open]
  split_ifs <;> rfl

theorem cubic_cnt_calc_last_max_cwnd (ca : BicState) (cwnd jiffies : Nat) :
    (cubic_cnt_calc ca cwnd jiffies).last_max_cwnd = ca.last_max_cwnd := by
  simp only [cubic_cnt_calc]
  split_ifs <;> rfl

theorem cnt_cap_last_max_cwnd (ca : BicState) :
    (cnt_cap_first_epoch ca).last_max_cwnd = ca.last_max_cwnd := by
  simp only [cnt_cap_first_epoch]
  split_ifs <;> rfl

theorem cnt_cap_le (ca : BicState) (h : ca.last_max_cwnd = 0) :
    (cnt_cap_first_epoch ca).cnt ≤ 20 := by
  simp only [cnt_cap_first_epoch]
  split_ifs with hc
  · simp
  · simp only at hc ⊢
    omega

theorem cubic_calc_last_max_cwnd (ca : BicState) (cwnd acked jiffies : Nat) :
    (cubic_calc ca cwnd acked jiffies).last_max_cwnd = ca.last_max_cwnd := by
  simp only [cubic_calc, cnt_cap_last_max_cwnd, cubic_cnt_calc_last_max_cwnd,
    cubic_epoch_open_last_max_cwnd]

theorem cubic_calc_cnt_le (ca : BicState) (cwnd acked jiffies : Nat)
    (h : ca.last_max_cwnd = 0) : (cubic_calc ca cwnd acked jiffies).cnt ≤ 20 := by
  apply cnt_cap_le
  rw [cubic_cnt_calc_last_max_cwnd, cubic_epoch_open_last_max_cwnd]
  exact h

theorem bictcp_update_last_max_cwnd (ca : BicState) (cwnd acked jiffies : Nat) :
    (bictcp_update ca cwnd acked jiffies).last_max_cwnd = ca.last_max_cwnd := by
  simp only [bictcp_update, bictcp_update_go]
  split_ifs <;>
    simp [friendly_floor_last_max_cwnd, cubic_calc_last_max_cwnd]

theorem bictcp_update_cnt_le (ca : BicState) (cwnd acked jiffies : Nat)
    (h0 : ca.last_max_cwnd = 0) (h20 : ca.cnt ≤ 20) :
    (bictcp_update ca cwnd acked jiffies).cnt ≤ 20 := by
  simp only [bictcp_update, bictcp_update_go]
  split_ifs with h1 h2
  · exact h20
  · exact friendly_floor_cnt_le _ _ h20
  · exact friendly_floor_cnt_le _ _ (cubic_calc_cnt_le _ _ _ _ h0)

theorem bictcp_update_cnt_ge (ca : BicState) (cwnd acked jiffies : Nat)
    (inv : ca.last_cwnd ≠ 0 → 2 ≤ ca.cnt) (h1 : 1 ≤ cwnd) (h2 : cwnd < U32) :
    2 ≤ (bictcp_update ca cwnd acked jiffies).cnt := by
  simp only [bictcp_update, bictcp_update_go]
  split_ifs with hEarly hGoto
  · -- rate-limit early return: `cnt` untouched; `last_cwnd = cwnd ≠ 0`
    refine inv ?_
    have h' := hEarly.1
    simp only at h'
    rw [h']
    have h2' : cwnd < 4294967296 := by simpa [U32] using h2
    simp only [u32, U32]
    omega
  · exact friendly_floor_cnt_ge _ _
  · exact friendly_floor_cnt_ge _ _

/-- Invariant: in every reachable core state, a non-zero `last_cwnd` (i.e. at
least one full `bictcp_update` pass has run since the last reset) implies
`cnt >= 2`. -/
theorem reachable_cnt_inv (s : BicState) (h : ReachableBic s) :
    s.last_cwnd ≠ 0 → 2 ≤ s.cnt := by
  induction h with
  | init => intro h; exact absurd rfl h
  | update s cwnd acked jiffies _ ih =>
      simp only [bictcp_update, bictcp_update_go]
      split_ifs with hEarly hGoto
      · intro h; exact ih h
      · intro _; exact friendly_floor_cnt_ge _ _
      · intro _; exact friendly_floor_cnt_ge _ _
  | recalc s cwnd fc _ ih =>
      simp only [bictcp_recalc_ssthresh]
      split_ifs <;> exact ih
  | tx_start s now lsndtime _ ih =>
      simp only [bictcp_cwnd_event_tx_start]
      split_ifs <;> exact ih
  | acked s rtt_us jiffies _ ih =>
      simp only [bictcp_acked_core]
      split_ifs <;> exact ih

/-! ## The claims -/

/-- Claim C1, counterexample: with `previousWindowBytes = P = 2` and
`currentWindowBytes = P/2 = 1`, the computed `norm_diff` is 75, not the
claimed 50 (halving the delivered bytes gives `(2P - P/2)*100/(2P) = 75`;
50 would correspond to an unchanged, not halved, window). -/
theorem claim1_counterexample : norm_diff 2 1 = 75 ∧ norm_diff 2 1 ≠ 50 := by decide

/-- Claim C1 (amended): with the delivery-trend exit threshold configured to
35, for two equal-duration windows where the second delivers exactly half the
bytes of the first (`prev = 2k > 0`, `curr = k`), `norm_diff` is 75 (not 50),
which is `>= 35`, so the exit condition triggers; `search_exit_slow_start`
(rollback disabled) then sets `ssthresh` to the current congestion window.
(`k < 2^55` keeps the `u64` products exact.) -/
theorem claim1_theorem (k : Nat) (hk : 0 < k) (hb : k < 36028797018963968) :
    norm_diff (2 * k) k = 75 ∧ search_exit_condition (2 * k) k = true ∧
    (35 : Nat) = search_thresh ∧
    ∀ s cwnd mss, search_exit_slow_start s cwnd mss = (cwnd, cwnd) := by
  have e1 : u64sub (2 * (2 * k)) k = 3 * k := by
    simp only [u64sub, U64]
    omega
  have e2 : u64 (3 * k * 100) = 300 * k := by
    simp only [u64, U64]
    omega
  have e3 : u64 (2 * (2 * k)) = 4 * k := by
    simp only [u64, U64]
    omega
  have e4 : 300 * k / (4 * k) = 75 := by
    rw [show 300 * k = 75 * (4 * k) by ring]
    exact Nat.mul_div_cancel _ (by omega)
  have hnd : norm_diff (2 * k) k = 75 := by
    unfold norm_diff
    rw [e1, e2, e3, e4]
    decide
  refine ⟨hnd, ?_, rfl, fun s cwnd mss => rfl⟩
  unfold search_exit_condition
  rw [hnd, e3]
  have e5 : u64 k = k := by
    simp only [u64, U64]
    omega
  rw [e5]
  simp only [Bool.and_eq_true, decide_eq_true_eq]
  exact ⟨by omega, by norm_num [search_thresh]⟩

/-- Claim C1, witness instance at `k = 1`. -/
theorem claim1_witness :
    norm_diff (2 * 1) 1 = 75 ∧ search_exit_condition (2 * 1) 1 = true ∧
    (35 : Nat) = search_thresh ∧
    ∀ s cwnd mss, search_exit_slow_start s cwnd mss = (cwnd, cwnd) :=
  claim1_theorem 1 (by decide) (by decide)

/-- Claim C2, counterexample: on a freshly initialized flow (`cnt = 0`,
`last_cwnd = 0`), a call with `currentWindow = 0` at `jiffies = 5` takes the
rate-limit early return (`last_cwnd == cwnd` and the elapsed-tick test holds)
and leaves `cnt = 0 < 2`. -/
theorem claim2_counterexample :
    ReachableBic initBic ∧ (bictcp_update initBic 0 0 5).cnt = 0 :=
  ⟨ReachableBic.init, by decide⟩

/-- Claim C2 (amended): for every reachable flow state and every
`currentWindow >= 1` (a real congestion window is never 0) and every
`ackedSegments`, after `bictcp_update` the stored `cnt` is at least 2 —
including the rate-limited early-return path (where the invariant
`last_cwnd != 0 -> cnt >= 2` of reachable states applies) and the path that
skips straight to the TCP-friendly blend. -/
theorem claim2_theorem (s : BicState) (h : ReachableBic s) (cwnd acked jiffies : Nat)
    (h1 : 1 ≤ cwnd) (h2 : cwnd < U32) :
    2 ≤ (bictcp_update s cwnd acked jiffies).cnt :=
  bictcp_update_cnt_ge s cwnd acked jiffies (reachable_cnt_inv s h) h1 h2

/-- Claim C2, witness instance: a first update at `cwnd = 10`. -/
theorem claim2_witness : 2 ≤ (bictcp_update initBic 10 1 50).cnt :=
  claim2_theorem initBic ReachableBic.init 10 1 50 (by decide) (by norm_num [U32])

/-- Claim C3, counterexample: `cexBic` is reachable (grow from a 200-segment
ceiling at `cwnd = 100`, where the cubic target equals `cwnd` and
`cnt := 100 * cwnd = 10000`; then a loss at `cwnd = 1` fast-converges
`last_max_cwnd` to `(1 * 1741) / 2048 = 0`).  It has `last_max_cwnd = 0`, yet
the next `bictcp_update` call at the same window and jiffy takes the
rate-limit early return and leaves `cnt = 10000 > 20`. -/
theorem claim3_counterexample :
    ReachableBic cexBic ∧ cexBic.last_max_cwnd = 0 ∧
    20 < (bictcp_update cexBic 100 0 100).cnt := by
  refine ⟨?_, by decide, by decide⟩
  show ReachableBic (bictcp_recalc_ssthresh
    (bictcp_update (bictcp_recalc_ssthresh initBic 200 true).1 100 1 100) 1 true).1
  exact ReachableBic.recalc _ 1 true
    (ReachableBic.update _ 100 1 100 (ReachableBic.recalc _ 200 true ReachableBic.init))

/-- Claim C3 (amended): for any fixed `currentWindow`, repeated
`bictcp_update` calls never leave `cnt > 20` when starting from a reachable
state with `last_max_cwnd = 0` *and* `cnt <= 20` — in particular from any
state of the genuinely first epoch (reachable from init by updates alone,
before any threshold recalculation), since all such states satisfy both.
The extra `cnt <= 20` precondition is forced by the counterexample: a
threshold recalculation at a tiny window can return `last_max_cwnd` to 0
while a stale `cnt > 20` survives the rate-limited path. -/
theorem claim3_theorem :
    (∀ s, ReachableFirstEpoch s → s.last_max_cwnd = 0 ∧ s.cnt ≤ 20) ∧
    (∀ s cwnd acked jiffies, s.last_max_cwnd = 0 → s.cnt ≤ 20 →
      (bictcp_update s cwnd acked jiffies).last_max_cwnd = 0 ∧
      (bictcp_update s cwnd acked jiffies).cnt ≤ 20) := by
  constructor
  · intro s h
    induction h with
    | init => exact ⟨rfl, by decide⟩
    | update s cwnd acked jiffies _ ih =>
        refine ⟨?_, bictcp_update_cnt_le s cwnd acked jiffies ih.1 ih.2⟩
        rw [bictcp_update_last_max_cwnd]
        exact ih.1
  · intro s cwnd acked jiffies h0 h20
    refine ⟨?_, bictcp_update_cnt_le s cwnd acked jiffies h0 h20⟩
    rw [bictcp_update_last_max_cwnd]
    exact h0

/-- Claim C3, witness instance: a first-epoch update at `cwnd = 100`. -/
theorem claim3_witness :
    initBic.last_max_cwnd = 0 ∧ (bictcp_update initBic 100 1 50).last_max_cwnd = 0 ∧
    (bictcp_update initBic 100 1 50).cnt ≤ 20 :=
  ⟨by decide, (claim3_theorem.2 initBic 100 1 50 (by decide) (by decide)).1,
    (claim3_theorem.2 initBic 100 1 50 (by decide) (by decide)).2⟩

/-- Claim C4, counterexample: at `cwnd = 2048` under a 4096-segment ceiling
with fast convergence on, the retained `last_max_cwnd` is
`2048 * 1741 / 2048 = 1741` — 85.0% of `cwnd`.  The claimed "approximately
87.5%" (7/8, i.e. 1792) misses it by 51 segments, which is 2.5% of `cwnd`,
far beyond rounding (even a generous 1%-of-`cwnd` tolerance, `10 * 2048`,
is exceeded: `875 * 2048 - 1000 * 1741 = 51000 > 20480`). -/
theorem claim4_counterexample :
    (bictcp_recalc_ssthresh ⟨0, 4096, 0, 0, 0, 0, 0, 0, 0, 0⟩ 2048 true).1.last_max_cwnd
      = 1741 ∧
    875 * 2048 - 1000 * 1741 = 51000 ∧ 10 * 2048 < 51000 := by decide

/-- Claim C4 (amended): for every flow state, `bictcp_recalc_ssthresh` closes
the epoch (`epoch_start := 0`); with fast convergence enabled and
`cwnd < last_max_cwnd` it shrinks `last_max_cwnd` to
`cwnd * (1024 + 717) / 2048 = cwnd * 1741 / 2048`, retaining approximately
85.0% (not 87.5%) of the current window; otherwise it sets
`last_max_cwnd := cwnd`; and it returns `max(cwnd * 717 / 1024, 2)` where
`beta = 717 ≈ 0.7 * 1024`.  (`cwnd < 2^21` keeps the `u32` products exact.) -/
theorem claim4_theorem (s : BicState) (cwnd : Nat) (fc : Bool) (hw : cwnd < 2097152) :
    (bictcp_recalc_ssthresh s cwnd fc).1.epoch_start = 0 ∧
    (fc = true → cwnd < s.last_max_cwnd →
      (bictcp_recalc_ssthresh s cwnd fc).1.last_max_cwnd = cwnd * 1741 / 2048 ∧
      2048 * (bictcp_recalc_ssthresh s cwnd fc).1.last_max_cwnd ≤ 1741 * cwnd ∧
      1741 * cwnd < 2048 * ((bictcp_recalc_ssthresh s cwnd fc).1.last_max_cwnd + 1)) ∧
    (¬(cwnd < s.last_max_cwnd ∧ fc = true) →
      (bictcp_recalc_ssthresh s cwnd fc).1.last_max_cwnd = cwnd) ∧
    (bictcp_recalc_ssthresh s cwnd fc).2 = max (cwnd * 717 / 1024) 2 := by
  have hu : u32 cwnd = cwnd := by
    simp only [u32, U32]
    omega
  have hu1741 : u32 (cwnd * (BICTCP_BETA_SCALE + beta)) = cwnd * 1741 := by
    simp only [u32, U32, BICTCP_BETA_SCALE, beta]
    omega
  have hu717 : u32 (cwnd * beta) = cwnd * 717 := by
    simp only [u32, U32, beta]
    omega
  simp only [bictcp_recalc_ssthresh, hu, hu1741, hu717]
  refine ⟨?_, ?_, ?_, ?_⟩
  · split_ifs <;> rfl
  · intro hfc hlt
    rw [if_pos ⟨hlt, by simp [hfc]⟩]
    refine ⟨by norm_num [BICTCP_BETA_SCALE], ?_, ?_⟩
    · have hd := Nat.div_add_mod (cwnd * 1741) 2048
      have hm := Nat.mod_lt (cwnd * 1741) (show 0 < 2048 by norm_num)
      simp only [BICTCP_BETA_SCALE]
      omega
    · have hd := Nat.div_add_mod (cwnd * 1741) 2048
      have hm := Nat.mod_lt (cwnd * 1741) (show 0 < 2048 by norm_num)
      simp only [BICTCP_BETA_SCALE]
      omega
  · intro hnot
    rw [if_neg (by simpa using hnot)]
  · norm_num [BICTCP_BETA_SCALE]

/-- Claim C4, witness instance: `cwnd = 2048`, ceiling 4096, fast
convergence on. -/
theorem claim4_witness :
    (bictcp_recalc_ssthresh ⟨0, 4096, 0, 0, 0, 0, 0, 0, 0, 0⟩ 2048 true).1.epoch_start = 0 ∧
    (bictcp_recalc_ssthresh ⟨0, 4096, 0, 0, 0, 0, 0, 0, 0, 0⟩ 2048 true).1.last_max_cwnd
      = 2048 * 1741 / 2048 ∧
    (bictcp_recalc_ssthresh ⟨0, 4096, 0, 0, 0, 0, 0, 0, 0, 0⟩ 2048 true).2
      = max (2048 * 717 / 1024) 2 := by
  have h := claim4_theorem ⟨0, 4096, 0, 0, 0, 0, 0, 0, 0, 0⟩ 2048 true (by norm_num)
  exact ⟨h.1, (h.2.1 rfl (by norm_num)).1, h.2.2.2⟩

/-- Claim C5, counterexample: in the DEV variant the default active detector
is SEARCH (`search_enable_mode = 2`, `hystart = 0`), yet `cubictcp_state` on
`TCP_CA_Loss` clears only the CUBIC core and the HyStart round state: on
`cexDevLoss` the SEARCH history survives intact (`index` still 7, bin
duration still 100, 42 bytes still recorded in bin 3). -/
theorem claim5_counterexample :
    (cubictcp_state_loss cexDevLoss 1 2).core = initBic ∧
    (cubictcp_state_loss cexDevLoss 1 2).index = 7 ∧
    (cubictcp_state_loss cexDevLoss 1 2).epoch_dur_us = 100 ∧
    ((cubictcp_state_loss cexDevLoss 1 2).bins.map fun b => b 3) = some 42 :=
  ⟨rfl, rfl, rfl, rfl⟩

/-- Claim C5 (amended): on entry to the loss state both variants clear all
CubicWindowModel fields to zero (in particular `epoch_start := 0`) and reset
the HyStart round state (with `found := 0`).  The SEARCH delivery-trend
detector is reset only in the SRC variant; the DEV variant leaves its bin
history, bin clock and byte counters untouched. -/
theorem claim5_theorem (fd : DevFlow) (fs : SrcFlow) (now nxt now2 nxt2 : Nat) :
    (cubictcp_state_loss fd now nxt).core = initBic ∧
    (cubictcp_state_loss fd now nxt).loss_cwnd = 0 ∧
    (cubictcp_state_loss fd now nxt).hystart
      = hystartRoundReset { fd.hystart with found := 0 } now nxt ∧
    (cubictcp_state_loss fd now nxt).index = fd.index ∧
    (cubictcp_state_loss fd now nxt).bins = fd.bins ∧
    (cubictcp_state_loss fd now nxt).epoch_dur_us = fd.epoch_dur_us ∧
    (cubictcp_state_loss fd now nxt).epoch_expires_us = fd.epoch_expires_us ∧
    (cubictcp_state_loss fd now nxt).bytes_acked_prev = fd.bytes_acked_prev ∧
    (bictcp_state_loss fs now2 nxt2).core = initBic ∧
    (bictcp_state_loss fs now2 nxt2).search = searchReset ∧
    (bictcp_state_loss fs now2 nxt2).hystart
      = hystartRoundReset { fs.hystart with found := 0 } now2 nxt2 :=
  ⟨rfl, rfl, rfl, rfl, rfl, rfl, rfl, rfl, rfl, rfl, rfl⟩

/-- Claim C6, counterexample: on `cexSearch` at `now = 1350` only 3 bin
boundaries were missed (`passed_bins = 4`), far within the 25-bin ring
capacity, yet `search_update_bins` performs the wholesale reset: the live
history in bin 7 is discarded and the bin duration is zeroed. -/
theorem claim6_counterexample :
    passed_bins cexSearch 1350 = 4 ∧ 4 < SEARCH_TOTAL_BINS ∧
    cexSearch.bins 7 = 42 ∧
    (search_update_bins cexSearch 1350 500).bins 7 = 0 ∧
    (search_update_bins cexSearch 1350 500).bin_duration_us = 0 := by decide

/-- Claim C7 (code bug): on a flow whose bin-buffer allocation failed
(`bins = none`) the very next ACK-processing call in slow start reaches the
unconditional `ca->bins[ca->index % 30] += ...` accumulation with no NULL
check and dereferences the missing buffer (modelled as `none`, a kernel
crash) — the detector is not disabled and the call does not complete, even
though every quantity it needed before that point was available. -/
theorem claim7_theorem :
    hystart_search_update cexDevNoBuf cexDevNoBufTp 1000 100 none = none := rfl

/-- Claim C9 (confirmed): with zero elapsed idle time (`lsndtime` equals
`now` on the u32 clock) the TX-start handler leaves the state unchanged; and
for an open epoch (`epoch_start != 0`) and positive idle time, `epoch_start`
is shifted forward by the idle duration `now - lsndtime` but clamped so it
never exceeds `now` (stated on the wrap-free range `now < 2^31`,
`epoch_start <= now`, `lsndtime <= now`). -/
theorem claim9_theorem (s : BicState) (now lsndtime : Nat) :
    (u32 lsndtime = u32 now → bictcp_cwnd_event_tx_start s now lsndtime = s) ∧
    (now < 2147483648 → lsndtime < now → s.epoch_start ≤ now → s.epoch_start ≠ 0 →
      (bictcp_cwnd_event_tx_start s now lsndtime).epoch_start
        = min (s.epoch_start + (now - lsndtime)) now ∧
      (bictcp_cwnd_event_tx_start s now lsndtime).epoch_start ≤ now) := by
  constructor
  · intro h0
    unfold bictcp_cwnd_event_tx_start
    have hz : u32sub (u32 now) lsndtime = 0 := by
      simp only [u32sub, u32, U32] at h0 ⊢
      omega
    rw [if_neg]
    simp only [hz]
    intro hcon
    exact absurd hcon.2 (by decide)
  · intro hn hl he h0
    have hnow : u32 now = now := by
      simp only [u32, U32]
      omega
    have hd : u32sub (u32 now) lsndtime = now - lsndtime := by
      simp only [u32sub, u32, U32]
      omega
    have hpos : 0 < s32OfU32 (u32sub (u32 now) lsndtime) := by
      rw [hd]
      simp only [s32OfU32, U32]
      rw [if_pos (by omega)]
      omega
    have he32 : u32 (s.epoch_start + u32sub (u32 now) lsndtime)
        = s.epoch_start + (now - lsndtime) := by
      rw [hd]
      simp only [u32, U32]
      omega
    unfold bictcp_cwnd_event_tx_start
    rw [if_pos ⟨h0, hpos⟩, he32]
    by_cases hc : s.epoch_start + (now - lsndtime) ≤ now
    · rw [if_neg]
      · simp only
        omega
      · simp only [after32, s32OfU32, u32sub, u32, U32]
        rw [if_pos (by omega)]
        simp only [decide_eq_true_eq, not_lt]
        omega
    · rw [if_pos]
      · simp only [hnow]
        omega
      · simp only [after32, s32OfU32, u32sub, u32, U32]
        rw [if_neg (by omega)]
        simp only [decide_eq_true_eq]
        omega

/-- Claim C9, witness instance: epoch at 100, idle from 120 to 150. -/
theorem claim9_witness :
    (bictcp_cwnd_event_tx_start ⟨0, 0, 0, 0, 0, 0, 0, 100, 0, 0⟩ 150 120).epoch_start
      = min (100 + (150 - 120)) 150 ∧
    (bictcp_cwnd_event_tx_start ⟨0, 0, 0, 0, 0, 0, 0, 100, 0, 0⟩ 150 120).epoch_start ≤ 150 :=
  (claim9_theorem ⟨0, 0, 0, 0, 0, 0, 0, 100, 0, 0⟩ 150 120).2 (by norm_num) (by norm_num)
    (by norm_num) (by norm_num)

/-- Claim C10 (confirmed): `cubic_root` is total on every `u64` input.  For
`a < 64` the bit length is below 7 and the function returns the direct table
lookup at index `a`.  For `fls64(a) >= 7` the derived table index
`a >> (3*b')` always stays strictly below 64, and the initial estimate is at
least 2 (in fact at least 4), so the Newton-Raphson divisor `x * (x - 1)` is
nonzero and the division is always defined. -/
theorem claim10_theorem (a : Nat) (ha : a < U64) :
    (a < 64 → fls64 a < 7 ∧ cubic_root a = (vTab a + 35) >>> 6) ∧
    (7 ≤ fls64 a →
      cubicRootShift a < 64 ∧ 2 ≤ cubicRootEstimate a ∧
      cubicRootEstimate a * (cubicRootEstimate a - 1) ≠ 0) := by
  constructor
  · intro h64
    refine ⟨fls64_lt_seven a h64, ?_⟩
    simp only [cubic_root, Nat.mod_eq_of_lt ha]
    rw [if_pos (fls64_lt_seven a h64)]
  · intro h7
    have h64 : 64 ≤ a := by
      by_contra hlt
      exact absurd h7 (by simpa using Nat.lt_of_lt_of_le (fls64_lt_seven a (by omega)) le_rfl)
    obtain ⟨hs8, hs64⟩ := cubicRootShift_bounds a h64 ha
    have hest := cubicRootEstimate_ge a h64 ha
    refine ⟨hs64, by omega, ?_⟩
    exact Nat.mul_ne_zero (by omega) (by omega)

/-- Claim C10, witness instances at `a = 1000` (Newton path) and `a = 2`
(table path). -/
theorem claim10_witness :
    (cubicRootShift 1000 < 64 ∧ 2 ≤ cubicRootEstimate 1000 ∧
      cubicRootEstimate 1000 * (cubicRootEstimate 1000 - 1) ≠ 0) ∧
    (fls64 2 < 7 ∧ cubic_root 2 = (vTab 2 + 35) >>> 6) :=
  ⟨(claim10_theorem 1000 (by norm_num [U64])).2 (by decide),
   (claim10_theorem 2 (by norm_num [U64])).1 (by norm_num)⟩

/-- Claim C6 (amended, SRC variant): on a bin-boundary crossing the
wholesale reset is triggered already when more than one bin boundary was
missed (`passed_bins >= 3`) — far below the ring capacity of 25 — discarding
all bin history and zeroing the bin duration; only when at most one boundary
was missed (`passed_bins <= 2`) are the missed bins filled (with the carried
previous value) with no wholesale reset, every other bin preserved (stated
here absent a concurrent overflow rescale).  The DEV variant never resets at
all: its catch-up loop zero-fills every missed bin individually.  (The stray
`break` in the SRC source makes the fragment formally invalid C; the
embedding follows its if/else structure.) -/
theorem claim6_theorem (s : SearchSt) (now bytes : Nat) (hd : 0 < s.bin_duration_us) :
    (3 ≤ passed_bins s now →
      (search_update_bins s now bytes).bin_duration_us = 0 ∧
      ∀ j : Nat, j ≠ idxMod (-1 + (passed_bins s now : Int)) 25 →
        (search_update_bins s now bytes).bins j = 0) ∧
    (passed_bins s now < 3 →
      u64 bytes >>> s.scale_factor ≤ 65535 →
      (search_update_bins s now bytes).bin_duration_us = s.bin_duration_us ∧
      (search_update_bins s now bytes).scale_factor = s.scale_factor ∧
      ∀ j : Nat, j ≠ idxMod (s.curr_idx + 1) 25 →
        j ≠ idxMod (s.curr_idx + (passed_bins s now : Int)) 25 →
        (search_update_bins s now bytes).bins j = s.bins j) := by
  constructor
  · intro h3
    simp only [search_update_bins]
    rw [if_pos h3]
    constructor
    · split_ifs <;> rfl
    · intro j hj
      simp only [searchReset] at hj ⊢
      split_ifs with hbv
      · simp only [binWrite]
        rw [if_neg hj]
        simp [Nat.zero_shiftRight]
      · simp only [binWrite]
        rw [if_neg hj]
  · intro hlt hno
    have h1 : 1 ≤ passed_bins s now := by
      unfold passed_bins
      exact Nat.succ_le_succ (Nat.zero_le _)
    have h3' : ¬ 3 ≤ passed_bins s now := by omega
    have hmax : ¬ MAX_US_INT < u64 bytes >>> s.scale_factor := by
      simp only [MAX_US_INT]
      omega
    have hP : passed_bins s now = 1 ∨ passed_bins s now = 2 := by omega
    simp only [search_update_bins]
    rw [if_neg h3']
    rcases hP with hP | hP <;> rw [hP] <;> dsimp only <;> simp only [if_neg hmax] <;>
      refine ⟨by trivial, by trivial, ?_⟩
    · intro j hj1 hj2
      simp only [show (1 : Nat) - 1 = 0 from rfl, searchFill, binWrite]
      rw [if_neg hj2]
    · intro j hj1 hj2
      simp only [show (2 : Nat) - 1 = 1 from rfl, searchFill, binWrite]
      rw [if_neg hj2, if_neg hj1]

/-- Claim C6, witness instance: one boundary crossed at `now = 1050`,
history in bin 7 preserved. -/
theorem claim6_witness :
    0 < cexSearch.bin_duration_us ∧ passed_bins cexSearch 1050 < 3 ∧
    (search_update_bins cexSearch 1050 500).bin_duration_us = cexSearch.bin_duration_us ∧
    (search_update_bins cexSearch 1050 500).bins 7 = cexSearch.bins 7 := by
  refine ⟨by decide, by decide, ?_, ?_⟩
  · exact ((claim6_theorem cexSearch 1050 500 (by decide)).2 (by decide) (by decide)).1
  · exact ((claim6_theorem cexSearch 1050 500 (by decide)).2 (by decide) (by decide)).2.2 7
      (by decide) (by decide)

/-- Claim C8, counterexample: `cubic_root(2) = 1` and `1^3 = 1` is off from 2
by 50%, far beyond 0.5%; and even away from the tiny inputs the bound fails:
at the perfect cube `x = 345^3 = 41063625`, `cubic_root(x) = 344` and `344^3`
misses `x` by about 0.87%. -/
theorem claim8_counterexample :
    cubic_root 2 = 1 ∧ 5 * 2 < 1000 * (2 - cubic_root 2 ^ 3) ∧
    cubic_root 41063625 = 344 ∧ (345 : Nat) ^ 3 = 41063625 ∧
    5 * 41063625 < 1000 * (41063625 - cubic_root 41063625 ^ 3) := by decide

theorem checkCubes_sound : ∀ fuel lo hi, checkCubes fuel lo hi = true →
    ∀ y, lo ≤ y → y < hi → cubeErrOK y = true := by
  intro fuel
  induction fuel with
  | zero =>
      intro lo hi h y h1 h2
      simp only [checkCubes, decide_eq_true_eq] at h
      omega
  | succ f ih =>
      intro lo hi h y h1 h2
      simp only [checkCubes] at h
      split_ifs at h with hle heq
      · omega
      · have hy : y = lo := by omega
        subst hy
        exact h
      · rw [Bool.and_eq_true] at h
        rcases Nat.lt_or_ge y ((lo + hi) / 2) with hy | hy
        · exact ih lo _ h.1 y h1 hy
        · exact ih _ hi h.2 y hy h2

set_option maxHeartbeats 12000000 in
set_option maxRecDepth 100000 in
/-- Claim C8 (amended): over the claimed range `[1, 2^40]` the 0.5% bound is
false both for small inputs (where one integer root step exceeds 0.5%) and
sporadically up to `~2^30`, so the provable nearby statement is: for every
perfect cube `x = y^3` in `[1, 2^40]` (i.e. `1 <= y <= 10321`),
`cubic_root(x)^3` is within 1% relative error of `x` — verified exhaustively
for all 10321 cubes. -/
theorem claim8_theorem (y : Nat) (h1 : 1 ≤ y) (h2 : y ≤ 10321) :
    1000 * (max (cubic_root (y * y * y) * cubic_root (y * y * y) * cubic_root (y * y * y))
        (y * y * y)
      - min (cubic_root (y * y * y) * cubic_root (y * y * y) * cubic_root (y * y * y))
        (y * y * y))
      ≤ 10 * (y * y * y) := by
  have hcheck : checkCubes 15 1 10322 = true := by decide
  have h := checkCubes_sound 15 1 10322 hcheck y h1 (by omega)
  simpa [cubeErrOK] using h

/-- Claim C8, witness instance: the worst cube, `y = 345`. -/
theorem claim8_witness :
    1000 * (max (cubic_root (345 * 345 * 345) * cubic_root (345 * 345 * 345)
        * cubic_root (345 * 345 * 345)) (345 * 345 * 345)
      - min (cubic_root (345 * 345 * 345) * cubic_root (345 * 345 * 345)
        * cubic_root (345 * 345 * 345)) (345 * 345 * 345))
      ≤ 10 * (345 * 345 * 345) :=
  claim8_theorem 345 (by norm_num) (by norm_num)

end TcpSS
